import Mathlib

/-!
Verification of the AUR search bot's query cache and pagination engine.

The development shallowly embeds the Rust sources (`src/request.rs`,
`src/handlers.rs`, `src/main.rs`) in Lean:

* strings are represented as `List Char`;
* the `f32` popularity field is represented as `Option ℚ` — `some q` is a
  non-NaN float of value `q`, `none` is NaN, so `partial_cmp` returning
  `None` on NaN is modelled faithfully;
* a Rust panic (an `unwrap` failure, or an out-of-bounds slice index) is
  modelled by the value `none` of an `Option` result;
* the `retainer` TTL cache is modelled as an association list of
  `(key, value, expiry instant)` with instants in whole seconds.
-/

namespace AurBot

/-- Rust `String` / `&str`, embedded as its list of characters. -/
abbrev Str := List Char

/-- Embeds `struct Packages` from `src/request.rs` (field order preserved).
`popularity` is the `f32` field: `some q` models a non-NaN value `q`,
`none` models NaN. -/
structure Packages where
  id : Nat
  name : Str
  version : Str
  description : Str
  popularity : Option ℚ
  num_votes : Nat
  maintainer : Str
  package_url : Str
  package_base : Str
  first_submitted : Str
  last_modified : Str
deriving DecidableEq

/-- Embeds `enum AurResponse` from `src/request.rs`: the upstream reply is
either `Error { error }` or `Result { resultcount, results }`. -/
inductive AurResponse where
  | Error (error : Str)
  | Result (resultcount : Nat) (results : List Packages)
deriving DecidableEq

/-- Embeds `enum Search` from `src/request.rs`. -/
inductive Search where
  | Package (s : Str)
  | Maintainer (s : Str)
deriving DecidableEq

/-- The literal maintainer-search marker `"!m "`. -/
def bangM : Str := ['!', 'm', ' ']

/-- Embeds Rust `query.replace("!m ", "")` specialised to the `"!m "`
pattern: every non-overlapping occurrence of the pattern is removed,
scanning left to right. -/
def stripBangM : Str → Str
  | '!' :: 'm' :: ' ' :: rest => stripBangM rest
  | c :: rest => c :: stripBangM rest
  | [] => []

/-- True when the string contains an occurrence of `"!m "`. -/
def hasPat : Str → Bool
  | '!' :: 'm' :: ' ' :: _ => true
  | _ :: rest => hasPat rest
  | [] => false

/-- Embeds `Search::from` (`src/request.rs` lines 35-43): a query starting
with `"!m "` becomes `Maintainer(query.replace("!m ", ""))`, any other
query becomes `Package(query)`. (`from` is a Lean keyword, hence the
name `fromQuery`.) -/
def Search.fromQuery (query : Str) : Search :=
  if query.take 3 = bangM then .Maintainer (stripBangM query) else .Package query

/-- Embeds `impl Deref for Search` (`src/request.rs` lines 45-53): both
variants dereference to the inner string. The cache is a
`Cache<String, AurResponse>`, so this inner string is the cache key used
by `cached_search` for both `get` and `insert` (where `query.clone()`
also resolves through `Deref` to a clone of the inner `String`). -/
def derefKey : Search → Str
  | .Package x => x
  | .Maintainer x => x

/-- Outcome of the upstream HTTP exchange performed by `search`:
the transport either fails (`netFail`), delivers a body that does not
parse as `AurResponse` (`badPayload`), or delivers a parsed response. -/
inductive Upstream where
  | netFail
  | badPayload
  | ok (resp : AurResponse)

/-- Embeds `search` (`src/request.rs` lines 149-162). Both the send and
the JSON decode are followed by `.unwrap()`, so a transport failure or a
malformed payload panics; the panic is modelled by `none`. A parsed
response is returned as is — `search` performs no sorting. -/
def search : Upstream → Option AurResponse
  | .netFail => none
  | .badPayload => none
  | .ok r => some r

/-- Embeds `f32::partial_cmp` on the popularity representation: `none`
(NaN) on either side yields `None`, otherwise the numeric ordering. -/
def optCmp (x y : Option ℚ) : Option Ordering :=
  match x, y with
  | some a, some b => some (if a < b then .lt else if a = b then .eq else .gt)
  | _, _ => none

/-- The comparator closure of `results.sort_by(|a, b|
b.popularity.partial_cmp(&a.popularity).unwrap())` before the `unwrap`:
it compares `b`'s popularity against `a`'s. -/
def popCompare (a b : Packages) : Option Ordering :=
  optCmp b.popularity a.popularity

/-- One insertion step of the stable sort performed by `sort_by` with
`popCompare`, in the panic monad: inserting an element that originally
preceded the (already sorted) tail. The comparator's `unwrap` panic
(`popCompare` returning `none`) propagates as `none`. -/
def insertM (a : Packages) : List Packages → Option (List Packages)
  | [] => some [a]
  | b :: l =>
    match popCompare a b with
    | none => none
    | some o => if o = .gt then (insertM a l).map (b :: ·) else some (a :: b :: l)

/-- Embeds `results.sort_by(...)` from `cached_search` (`src/request.rs`
lines 173-177): a stable sort driven by `popCompare`, realised as an
insertion sort in the panic monad. On comparator panic the whole call is
`none`; otherwise the unique stable, popularity-descending reordering is
returned. -/
def sortByM : List Packages → Option (List Packages)
  | [] => some []
  | a :: l =>
    match sortByM l with
    | none => none
    | some l' => insertM a l'

/-- Sort key: the numeric value of a non-NaN popularity. -/
def popKey (p : Packages) : ℚ :=
  p.popularity.getD 0

/-- Popularity-descending preorder: `rPop a b` states that `a` may stay
before `b` in the sorted output. -/
def rPop (a b : Packages) : Prop :=
  popKey b ≤ popKey a

instance : DecidableRel rPop :=
  fun a b => inferInstanceAs (Decidable (popKey b ≤ popKey a))

instance : IsTotal Packages rPop :=
  ⟨fun a b => le_total (popKey b) (popKey a)⟩

instance : IsTrans Packages rPop :=
  ⟨fun _ _ _ hab hbc => le_trans hbc hab⟩

/-- The pure stable popularity-descending sort; `sortByM` equals
`some (sortP ·)` whenever no popularity is NaN. -/
def sortP (l : List Packages) : List Packages :=
  List.insertionSort rPop l

/-- The post-processing `cached_search` applies to an upstream response
before inserting it into the cache (`src/request.rs` lines 174-177):
a `Result` has its items sorted (comparator panic propagates), an
`Error` is kept unchanged. -/
def processResponse : AurResponse → Option AurResponse
  | .Error e => some (.Error e)
  | .Result c results => (sortByM results).map (.Result c)

/-- The retainer cache state: entries `(key, value, expiry instant)`,
newest first. -/
abbrev CacheState := List (Str × AurResponse × Nat)

/-- Embeds `cache.get(&key)` at instant `now`: the newest entry for the
key is returned unless it has expired. -/
def cacheGet : CacheState → Nat → Str → Option AurResponse
  | [], _, _ => none
  | (k', v, exp) :: rest, now, k =>
    if k' = k then (if now < exp then some v else none) else cacheGet rest now k

/-- Embeds `cache.insert(key, value, ttl)` at instant `now`: the entry is
stored with expiry `now + ttl`, shadowing any previous entry for the key. -/
def cacheInsert (st : CacheState) (now : Nat) (k : Str) (v : AurResponse) (ttl : Nat) : CacheState :=
  (k, v, now + ttl) :: st

/-- Embeds `cached_search` (`src/request.rs` lines 164-185). `upstream` is
the outcome the remote would deliver if contacted. On a hit the cached
value is returned and upstream is not contacted; on a miss the upstream
response is fetched, sorted when it is a `Result`, inserted with a 60
second TTL under the `Deref` key, and re-read from the cache. The
returned `Bool` records whether upstream was contacted; `none` models a
panic (`unwrap` in `search`, in the comparator, or on the final `get`). -/
def cached_search (st : CacheState) (now : Nat) (query : Search) (upstream : Upstream) :
    Option (AurResponse × CacheState × Bool) :=
  match cacheGet st now (derefKey query) with
  | some v => some (v, st, false)
  | none =>
    match search upstream with
    | none => none
    | some resp =>
      match processResponse resp with
      | none => none
      | some resp2 =>
        let st2 := cacheInsert st now (derefKey query) resp2 60
        match cacheGet st2 now (derefKey query) with
        | some v => some (v, st2, true)
        | none => none

/-- Embeds `results.iter().skip(offset).take(50)` from
`inline_queries_handler` (`src/handlers.rs` lines 54-65): the page of at
most 50 items starting at `offset`. -/
def pageSlice (results : List Packages) (offset : Nat) : List Packages :=
  (results.drop offset).take 50

/-- Embeds the pagination of the older handler in `src/main.rs` lines
66-84: `end = min(offset + 50, len)` followed by the direct slice
`&results[offset..end]`, which panics (modelled by `none`) when
`offset > end`. -/
def pageSliceOld (results : List Packages) (offset : Nat) : Option (List Packages) :=
  let e := if offset + 50 > results.length then results.length else offset + 50
  if offset ≤ e then some ((results.drop offset).take (e - offset)) else none

/-- An entry of the `inline_result` vector built by
`inline_queries_handler`: a package article, the synthetic error
article, or the synthetic no-result article. -/
inductive RenderedItem where
  | package (p : Packages)
  | errorItem (msg : Str)
  | noResult
deriving DecidableEq

/-- Embeds the construction of `inline_result` in `inline_queries_handler`
(`src/handlers.rs` lines 45-86): a `Result` contributes one article per
item of the page slice, an `Error` contributes the single synthetic error
article carrying the error message; if the vector would be empty the
single synthetic no-result article is pushed. -/
def renderItems (resp : AurResponse) (offset : Nat) : List RenderedItem :=
  let base : List RenderedItem :=
    match resp with
    | .Result _ results => (pageSlice results offset).map .package
    | .Error e => [.errorItem e]
  if base.isEmpty then [.noResult] else base

/-- Embeds the offset update on the success path of
`inline_queries_handler` (`src/handlers.rs` line 69):
`offset = if offset + 50 < results.len() { offset + 50 } else { 0 }`. -/
def nextOffsetSucc (results : List Packages) (offset : Nat) : Nat :=
  if offset + 50 < results.length then offset + 50 else 0

/-- Embeds the continuation-token attachment (`src/handlers.rs` lines
88-90): `next_offset(offset.to_string())` is attached iff the final
offset is nonzero. -/
def nextOffsetToken (offset : Nat) : Option Str :=
  if offset ≠ 0 then some (Nat.repr offset).data else none

/-- The characters the `[<>&]` regex of `null_to_none` matches. -/
def isSpecialChar (c : Char) : Bool :=
  c = '<' || c = '>' || c = '&'

/-- The per-character escaping of the loop body of `null_to_none`
(`src/request.rs` lines 94-101). -/
def escapeChar (c : Char) : Str :=
  if c = '<' then ['&', 'l', 't', ';']
  else if c = '>' then ['&', 'g', 't', ';']
  else if c = '&' then ['&', 'a', 'm', 'p', ';']
  else [c]

/-- Escaping applied to every character of a string. -/
def escapeAll : Str → Str
  | [] => []
  | c :: rest => escapeChar c ++ escapeAll rest

/-- Embeds `REGEX.find(&string)` of `null_to_none`: the index of the
first `[<>&]` character, if any. -/
def firstSpecial : Str → Option Nat
  | [] => none
  | c :: rest => if isSpecialChar c then some 0 else (firstSpecial rest).map (· + 1)

/-- Embeds `null_to_none` (`src/request.rs` lines 79-105). The input is
the decoded field: `none` for JSON null (or any decode failure), which
`unwrap_or` turns into the literal `"None"`. If the string contains a
special character, the clean prefix is copied verbatim and the rest is
escaped character by character; otherwise the string is returned as is. -/
def null_to_none (field : Option Str) : Str :=
  let string := field.getD ['N', 'o', 'n', 'e']
  match firstSpecial string with
  | some first => string.take first ++ escapeAll (string.drop first)
  | none => string

/-- A concrete package with the given id and popularity; the free-text
fields are empty. -/
def mkPkg (n : Nat) (pop : Option ℚ) : Packages :=
  ⟨n, [], [], [], pop, 0, [], [], [], [], []⟩

/-- Concrete package of popularity 3. -/
def pkg3 : Packages := mkPkg 3 (some 3)

/-- Concrete package of popularity 9. -/
def pkg9 : Packages := mkPkg 9 (some 9)

/-- Concrete package of popularity 1. -/
def pkg1 : Packages := mkPkg 1 (some 1)

/-- Concrete package whose popularity is NaN. -/
def nanPkg : Packages := mkPkg 7 none

/-- The concrete query text `"paru"`. -/
def paru : Str := ['p', 'a', 'r', 'u']

/-- A concrete cached by-name response for the term `"paru"`. -/
def paruResp : AurResponse := .Result 1 [mkPkg 1 (some 5)]

/-! ### Helper lemmas -/

/-- A string without any occurrence of `"!m "` is left unchanged by the
replace-all. -/
theorem stripBangM_of_no_pat (s : Str) (h : hasPat s = false) : stripBangM s = s := by
  induction s using stripBangM.induct with
  | case1 rest ih =>
    simp only [hasPat] at h
    exact absurd h (by simp)
  | case2 c rest hne ih =>
    rw [stripBangM]
    · rw [hasPat] at h
      · rw [ih h]
      · exact hne
    · exact hne
  | case3 => rfl

/-- A string starting with `"!m "` decomposes as the marker followed by
its 3-character drop. -/
theorem take3_eq_bangM (s : Str) (h : s.take 3 = bangM) :
    s = '!' :: 'm' :: ' ' :: s.drop 3 := by
  conv_lhs => rw [← List.take_append_drop 3 s]
  rw [h]
  rfl

/-- Over non-NaN popularities, one `insertM` step agrees with the pure
ordered insertion for the popularity-descending preorder. -/
theorem insertM_eq (a : Packages) (l : List Packages)
    (ha : a.popularity.isSome) (hl : ∀ p ∈ l, p.popularity.isSome) :
    insertM a l = some (List.orderedInsert rPop a l) := by
  obtain ⟨ka, hka⟩ := Option.isSome_iff_exists.mp ha
  induction l with
  | nil => rfl
  | cons b l ih =>
    obtain ⟨kb, hkb⟩ := Option.isSome_iff_exists.mp (hl b (List.mem_cons_self b l))
    have hrab : rPop a b ↔ kb ≤ ka := by
      unfold rPop popKey
      rw [hka, hkb]
      simp
    have step : insertM a (b :: l) =
        match optCmp b.popularity a.popularity with
        | none => none
        | some o =>
            if o = Ordering.gt then (insertM a l).map (b :: ·) else some (a :: b :: l) := rfl
    rw [step, hkb, hka]
    have step2 : optCmp (some kb) (some ka) =
        some (if kb < ka then Ordering.lt else if kb = ka then Ordering.eq else Ordering.gt) := rfl
    rw [step2, List.orderedInsert]
    show (if (if kb < ka then Ordering.lt else if kb = ka then Ordering.eq else Ordering.gt) =
        Ordering.gt then (insertM a l).map (b :: ·) else some (a :: b :: l)) =
      some (if rPop a b then a :: b :: l else b :: List.orderedInsert rPop a l)
    rcases lt_trichotomy ka kb with hlt | heq | hgt
    · have h1 : ¬ kb < ka := lt_asymm hlt
      have h2 : ¬ kb = ka := ne_of_gt hlt
      have h3 : ¬ rPop a b := fun hc => absurd (hrab.mp hc) (not_le_of_lt hlt)
      rw [if_neg h1, if_neg h2, if_pos rfl, if_neg h3,
        ih (fun p hp => hl p (List.mem_cons_of_mem b hp))]
      rfl
    · have h1 : ¬ kb < ka := by rw [heq]; exact lt_irrefl kb
      have h2 : kb = ka := heq.symm
      have h3 : rPop a b := hrab.mpr (le_of_eq heq.symm)
      rw [if_neg h1, if_pos h2, if_neg (by decide : ¬ Ordering.eq = Ordering.gt), if_pos h3]
    · have h1 : kb < ka := hgt
      have h3 : rPop a b := hrab.mpr (le_of_lt hgt)
      rw [if_pos h1, if_neg (by decide : ¬ Ordering.lt = Ordering.gt), if_pos h3]

/-- Over non-NaN popularities the in-place sort of `cached_search` cannot
panic and computes exactly the stable popularity-descending sort. -/
theorem sortByM_eq (l : List Packages) (hl : ∀ p ∈ l, p.popularity.isSome) :
    sortByM l = some (sortP l) := by
  induction l with
  | nil => rfl
  | cons a l ih =>
    have step : sortByM (a :: l) =
        match sortByM l with
        | none => none
        | some l' => insertM a l' := rfl
    rw [step, ih (fun p hp => hl p (List.mem_cons_of_mem a hp))]
    have hmem : ∀ p ∈ sortP l, p.popularity.isSome := by
      intro p hp
      exact hl p (List.mem_cons_of_mem a
        (((List.perm_insertionSort rPop l).mem_iff).mp hp))
    show insertM a (sortP l) = some (sortP (a :: l))
    rw [insertM_eq a (sortP l) (hl a (List.mem_cons_self a l)) hmem]
    rfl

/-- Ordered insertion places the new element in front of exactly the
equal-key elements that followed it, so key-filtering commutes with it. -/
theorem filter_orderedInsert (q : ℚ) (a : Packages) (l : List Packages) :
    (List.orderedInsert rPop a l).filter (fun p => popKey p == q) =
      if popKey a = q then a :: l.filter (fun p => popKey p == q)
      else l.filter (fun p => popKey p == q) := by
  induction l with
  | nil =>
    by_cases h : popKey a = q <;> simp [List.filter_cons, beq_iff_eq, h]
  | cons b l ih =>
    by_cases hr : rPop a b
    · rw [List.orderedInsert, if_pos hr]
      by_cases h : popKey a = q <;> simp [List.filter_cons, beq_iff_eq, h]
    · rw [List.orderedInsert, if_neg hr]
      have hlt : popKey a < popKey b := not_le.mp hr
      by_cases ha : popKey a = q
      · have hb : ¬ popKey b = q := fun hc => absurd (ha.trans hc.symm) (ne_of_lt hlt)
        rw [List.filter_cons, List.filter_cons, ih]
        simp only [beq_iff_eq, if_pos ha, if_neg hb]
      · rw [List.filter_cons, List.filter_cons, ih]
        simp only [beq_iff_eq, if_neg ha]

/-- Key-filtering commutes with the stable sort: this is stability — the
elements of any fixed popularity appear in the output in their original
relative order. -/
theorem filter_sortP (q : ℚ) (l : List Packages) :
    (sortP l).filter (fun p => popKey p == q) = l.filter (fun p => popKey p == q) := by
  induction l with
  | nil => rfl
  | cons a l ih =>
    show (List.orderedInsert rPop a (sortP l)).filter _ = _
    rw [filter_orderedInsert, List.filter_cons]
    by_cases h : popKey a = q
    · rw [if_pos h, ih]
      simp [h]
    · rw [if_neg h, ih]
      simp [h]

/-- Escaping distributes over concatenation. -/
theorem escapeAll_append (s t : Str) : escapeAll (s ++ t) = escapeAll s ++ escapeAll t := by
  induction s with
  | nil => rfl
  | cons c s ih => simp [escapeAll, ih]

/-- Characters the regex does not match are kept verbatim by the escape. -/
theorem escapeAll_of_no_special (s : Str) (h : ∀ c ∈ s, isSpecialChar c = false) :
    escapeAll s = s := by
  induction s with
  | nil => rfl
  | cons c s ih =>
    have hc := h c (List.mem_cons_self c s)
    simp only [isSpecialChar, Bool.or_eq_false_iff, decide_eq_false_iff_not] at hc
    rw [escapeAll, escapeChar, if_neg hc.1.1, if_neg hc.1.2, if_neg hc.2,
      ih (fun d hd => h d (List.mem_cons_of_mem c hd))]
    rfl

/-- When the regex finds no match, no character of the string is special. -/
theorem firstSpecial_none (s : Str) (h : firstSpecial s = none) :
    ∀ c ∈ s, isSpecialChar c = false := by
  induction s with
  | nil => intro c hc; cases hc
  | cons c s ih =>
    rw [firstSpecial] at h
    by_cases hc : isSpecialChar c
    · rw [if_pos hc] at h; cases h
    · rw [if_neg hc] at h
      intro d hd
      rcases List.mem_cons.mp hd with rfl | hd
      · exact Bool.eq_false_iff.mpr hc
      · exact ih (by simpa using h) d hd

/-- All characters before the first regex match are non-special. -/
theorem firstSpecial_some (s : Str) (i : Nat) (h : firstSpecial s = some i) :
    ∀ c ∈ s.take i, isSpecialChar c = false := by
  induction s generalizing i with
  | nil => intro c hc; simp at hc
  | cons c s ih =>
    rw [firstSpecial] at h
    by_cases hc : isSpecialChar c
    · rw [if_pos hc] at h
      cases h
      intro d hd; simp at hd
    · rw [if_neg hc] at h
      obtain ⟨j, hj, rfl⟩ := Option.map_eq_some'.mp h
      intro d hd
      rw [List.take_succ_cons] at hd
      rcases List.mem_cons.mp hd with rfl | hd
      · exact Bool.eq_false_iff.mpr hc
      · exact ih j hj d hd

/-- A freshly inserted entry is returned by every read strictly before
its expiry instant, with the stored value unchanged. -/
theorem cacheGet_insert_self (st : CacheState) (now now2 : Nat) (k : Str) (v : AurResponse)
    (ttl : Nat) (h : now2 < now + ttl) :
    cacheGet (cacheInsert st now k v ttl) now2 k = some v := by
  show (if k = k then (if now2 < now + ttl then some v else none) else cacheGet st now2 k) = some v
  rw [if_pos rfl, if_pos h]

/-- On a cache hit `cached_search` returns the cached value, leaves the
cache unchanged and does not contact upstream. -/
theorem cached_search_hit (st : CacheState) (now : Nat) (q : Search) (up : Upstream)
    (v : AurResponse) (hhit : cacheGet st now (derefKey q) = some v) :
    cached_search st now q up = some (v, st, false) := by
  have e1 : cached_search st now q up =
      match cacheGet st now (derefKey q) with
      | some v => some (v, st, false)
      | none =>
        match search up with
        | none => none
        | some resp =>
          match processResponse resp with
          | none => none
          | some resp2 =>
            match cacheGet (cacheInsert st now (derefKey q) resp2 60) now (derefKey q) with
            | some v => some (v, cacheInsert st now (derefKey q) resp2 60, true)
            | none => none := rfl
  rw [e1, hhit]

/-- On a cache miss whose fetch and post-processing both succeed,
`cached_search` contacts upstream, inserts the processed response under
the `Deref` key with the 60-second TTL, and returns the stored value. -/
theorem cached_search_miss (st : CacheState) (now : Nat) (q : Search) (up : Upstream)
    (r2 : AurResponse) (hmiss : cacheGet st now (derefKey q) = none)
    (hpr : (search up).bind processResponse = some r2) :
    cached_search st now q up = some (r2, cacheInsert st now (derefKey q) r2 60, true) := by
  obtain ⟨r1, hr1, hr2⟩ := Option.bind_eq_some.mp hpr
  have e1 : cached_search st now q up =
      match cacheGet st now (derefKey q) with
      | some v => some (v, st, false)
      | none =>
        match search up with
        | none => none
        | some resp =>
          match processResponse resp with
          | none => none
          | some resp2 =>
            match cacheGet (cacheInsert st now (derefKey q) resp2 60) now (derefKey q) with
            | some v => some (v, cacheInsert st now (derefKey q) resp2 60, true)
            | none => none := rfl
  rw [e1]
  simp only [hmiss, hr1, hr2,
    cacheGet_insert_self st now now (derefKey q) r2 60 (by omega)]

/-! ### Claim theorems -/

/-- Claim C1 (refuted, code bug): the keys built from `"paru"` and from
`"!m paru"` are the *same* cache key, because the cache is keyed by the
`Deref`-projected inner string: the two queries are distinct `Search`
values, yet `cached_search` for the by-maintainer query returns the
cached by-name entry without contacting upstream at all. -/
theorem cache_key_collision :
    derefKey (Search.fromQuery paru) = derefKey (Search.fromQuery (bangM ++ paru)) ∧
    Search.fromQuery paru ≠ Search.fromQuery (bangM ++ paru) ∧
    cached_search [(paru, paruResp, 60)] 0 (Search.fromQuery (bangM ++ paru)) Upstream.netFail =
      some (paruResp, [(paru, paruResp, 60)], false) :=
  ⟨by decide, by decide,
    cached_search_hit [(paru, paruResp, 60)] 0 (Search.fromQuery (bangM ++ paru))
      Upstream.netFail paruResp rfl⟩

/-- Claim C2 counterexample: on the raw string `"!m a !m b"`,
`Search::from` produces `Maintainer "a b"` — `replace` removes *every*
occurrence of `"!m "` — which differs from the claimed `s[3:]`
(`"a !m b"`). -/
theorem fromQuery_not_drop3 :
    Search.fromQuery ('!' :: 'm' :: ' ' :: 'a' :: ' ' :: '!' :: 'm' :: ' ' :: ['b']) =
      Search.Maintainer ('a' :: ' ' :: ['b']) ∧
    ('a' :: ' ' :: ['b']) ≠ ('!' :: 'm' :: ' ' :: 'a' :: ' ' :: '!' :: 'm' :: ' ' :: ['b']).drop 3 :=
  ⟨rfl, by decide⟩

/-- Claim C2 (amended): a raw string starting with `"!m "` yields
`Maintainer` of the string with every occurrence of `"!m "` removed,
which equals the 3-character drop whenever the remainder contains no
further occurrence; any other raw string yields `Package` of the full
string. -/
theorem fromQuery_spec (s : Str) :
    (s.take 3 = bangM →
      Search.fromQuery s = Search.Maintainer (stripBangM s) ∧
      (hasPat (s.drop 3) = false → stripBangM s = s.drop 3)) ∧
    (s.take 3 ≠ bangM → Search.fromQuery s = Search.Package s) := by
  constructor
  · intro h3
    refine ⟨by rw [Search.fromQuery, if_pos h3], ?_⟩
    intro hnp
    conv_lhs => rw [take3_eq_bangM s h3]
    simp only [stripBangM]
    exact stripBangM_of_no_pat _ hnp
  · intro h3
    rw [Search.fromQuery, if_neg h3]

/-- Witness for the amended claim C2 at the concrete query `"!m pq"`. -/
theorem fromQuery_spec_witness :
    Search.fromQuery (bangM ++ ['p', 'q']) = Search.Maintainer ['p', 'q'] := by
  have h := (fromQuery_spec (bangM ++ ['p', 'q'])).1 (by decide)
  rw [h.1, h.2 (by decide)]
  decide

/-- Claim C3 counterexample: on a transport failure (and likewise on a
malformed payload) `cached_search` panics — the `unwrap` in `search` —
so the request hard-fails: no synthetic item ever reaches the caller. -/
theorem upstream_transport_panics :
    cached_search [] 0 (Search.Package paru) Upstream.netFail = none ∧
    cached_search [] 0 (Search.Package paru) Upstream.badPayload = none :=
  ⟨rfl, rfl⟩

/-- Claim C3 (amended): an upstream *error payload* propagates verbatim
without retry, IS inserted into the cache with the 60-second TTL, and
the caller receives exactly one synthetic explanatory item; transport
failures and malformed payloads instead panic inside `search`
(`upstream_transport_panics`). -/
theorem upstream_error_propagates (st : CacheState) (now : Nat) (q : Search) (e : Str)
    (offset : Nat) (hmiss : cacheGet st now (derefKey q) = none) :
    cached_search st now q (.ok (.Error e)) =
      some (.Error e, cacheInsert st now (derefKey q) (.Error e) 60, true) ∧
    renderItems (.Error e) offset = [RenderedItem.errorItem e] ∧
    (renderItems (.Error e) offset).length = 1 :=
  ⟨cached_search_miss st now q (.ok (.Error e)) (.Error e) hmiss rfl, rfl, rfl⟩

/-- Witness for the amended claim C3 at a concrete empty cache and a
concrete error message. -/
theorem upstream_error_propagates_witness :
    cached_search [] 0 (Search.Package paru) (Upstream.ok (.Error ['x'])) =
      some (.Error ['x'], cacheInsert [] 0 (derefKey (Search.Package paru)) (.Error ['x']) 60, true) ∧
    renderItems (.Error ['x']) 0 = [RenderedItem.errorItem ['x']] ∧
    (renderItems (.Error ['x']) 0).length = 1 :=
  upstream_error_propagates [] 0 (Search.Package paru) ['x'] 0 rfl

/-- Claim C4 (code bug in the older handler): the current handler's page
is exactly `items[offset .. min(offset+50, len)]` and is empty for every
offset past the end; but the older `main.rs` handler, which slices
`&results[offset..min(offset+50, len)]` directly, panics whenever
`offset` exceeds the list length (here: one item, offset 2). -/
theorem page_slice_spec :
    (∀ (items : List Packages) (offset : Nat),
      pageSlice items offset = (items.take (min (offset + 50) items.length)).drop offset) ∧
    (∀ (items : List Packages) (k : Nat), pageSlice items (items.length + k) = []) ∧
    pageSliceOld [pkg9] 2 = none := by
  refine ⟨?_, ?_, by decide⟩
  · intro items offset
    rw [pageSlice, List.drop_take]
    apply List.take_eq_take.mpr
    rw [List.length_drop]
    omega
  · intro items k
    rw [pageSlice, List.drop_eq_nil_of_le (by omega : items.length ≤ items.length + k)]
    rfl

/-- Claim C5: on the success path the continuation offset is
`offset + 50` when that is still below the item count and `0` otherwise,
and the continuation token is attached iff the continuation offset is
nonzero. -/
theorem next_offset_spec (results : List Packages) (offset : Nat) :
    (offset + 50 < results.length → nextOffsetSucc results offset = offset + 50) ∧
    (¬ offset + 50 < results.length → nextOffsetSucc results offset = 0) ∧
    ((nextOffsetToken (nextOffsetSucc results offset)).isSome = true ↔
      nextOffsetSucc results offset ≠ 0) := by
  refine ⟨fun h => by rw [nextOffsetSucc, if_pos h], fun h => by rw [nextOffsetSucc, if_neg h], ?_⟩
  rw [nextOffsetToken]
  by_cases h : nextOffsetSucc results offset ≠ 0
  · rw [if_pos h]
    simpa using h
  · rw [if_neg h]
    simpa using h

/-- Witness for claim C5 on a concrete 60-item list at offsets 0 and 50. -/
theorem next_offset_spec_witness :
    nextOffsetSucc (List.replicate 60 pkg1) 0 = 0 + 50 ∧
    nextOffsetSucc (List.replicate 60 pkg1) 50 = 0 ∧
    ((nextOffsetToken (nextOffsetSucc (List.replicate 60 pkg1) 0)).isSome = true ↔
      nextOffsetSucc (List.replicate 60 pkg1) 0 ≠ 0) :=
  ⟨(next_offset_spec (List.replicate 60 pkg1) 0).1 (by simp),
    (next_offset_spec (List.replicate 60 pkg1) 50).2.1 (by simp),
    (next_offset_spec (List.replicate 60 pkg1) 0).2.2⟩

/-- Claim C8: a null field decodes to the literal `"None"`, and the
field transform is exactly the character-wise HTML escaping of `<`, `>`
and `&`, all other characters unchanged; in particular
`"a<b>c&d"` becomes `"a&lt;b&gt;c&amp;d"`. -/
theorem null_to_none_spec :
    null_to_none none = ['N', 'o', 'n', 'e'] ∧
    (∀ s : Str, null_to_none (some s) = escapeAll s) ∧
    null_to_none (some ('a' :: '<' :: 'b' :: '>' :: 'c' :: '&' :: ['d'])) =
      "a&lt;b&gt;c&amp;d".data := by
  refine ⟨by decide, ?_, by decide⟩
  intro s
  have step : null_to_none (some s) =
      match firstSpecial s with
      | some first => s.take first ++ escapeAll (s.drop first)
      | none => s := rfl
  rw [step]
  cases h : firstSpecial s with
  | none =>
    exact (escapeAll_of_no_special s (firstSpecial_none s h)).symm
  | some i =>
    show s.take i ++ escapeAll (s.drop i) = escapeAll s
    conv_rhs => rw [← List.take_append_drop i s]
    rw [escapeAll_append, escapeAll_of_no_special (s.take i) (firstSpecial_some s i h)]

/-- Claim C6: on a cache miss with a Success upstream result (whose
popularities, coming from parsed JSON numbers, are never NaN),
`cached_search` stores the item list sorted by popularity descending and
stably: the stored list is a permutation of the upstream list, pairwise
popularity-descending, and for each popularity value the items keep
their original upstream relative order. -/
theorem cached_search_sorts_stably (st : CacheState) (now : Nat) (q : Search) (c : Nat)
    (results : List Packages) (hmiss : cacheGet st now (derefKey q) = none)
    (hsome : ∀ p ∈ results, p.popularity.isSome) :
    cached_search st now q (.ok (.Result c results)) =
      some (.Result c (sortP results),
        cacheInsert st now (derefKey q) (.Result c (sortP results)) 60, true) ∧
    List.Sorted rPop (sortP results) ∧
    (sortP results).Perm results ∧
    ∀ q' : ℚ, (sortP results).filter (fun p => p.popularity == some q') =
      results.filter (fun p => p.popularity == some q') := by
  refine ⟨cached_search_miss st now q _ _ hmiss ?_,
    List.sorted_insertionSort rPop results, List.perm_insertionSort rPop results, ?_⟩
  · show processResponse (.Result c results) = some (.Result c (sortP results))
    rw [show processResponse (.Result c results) = (sortByM results).map (.Result c) from rfl,
      sortByM_eq results hsome]
    rfl
  · intro q'
    have h1 : ∀ p ∈ results, (p.popularity == some q') = (popKey p == q') := by
      intro p hp
      obtain ⟨k, hk⟩ := Option.isSome_iff_exists.mp (hsome p hp)
      simp only [popKey, hk, Option.getD_some]
      by_cases h : k = q'
      · subst h
        simp
      · rw [beq_eq_false_iff_ne.mpr (fun hc => h (Option.some_inj.mp hc)),
          beq_eq_false_iff_ne.mpr h]
    calc (sortP results).filter (fun p => p.popularity == some q')
        = (sortP results).filter (fun p => popKey p == q') :=
          List.filter_congr fun p hp =>
            h1 p ((List.perm_insertionSort rPop results).mem_iff.mp hp)
      _ = results.filter (fun p => popKey p == q') := filter_sortP q' results
      _ = results.filter (fun p => p.popularity == some q') := (List.filter_congr h1).symm

/-- Witness for claim C6: the spec's example — popularities
`[3, 9, 1]` are stored as `[9, 3, 1]`. -/
theorem cached_search_sorts_stably_witness :
    cached_search [] 0 (Search.Package ['s']) (Upstream.ok (.Result 3 [pkg3, pkg9, pkg1])) =
      some (.Result 3 [pkg9, pkg3, pkg1],
        cacheInsert [] 0 ['s'] (.Result 3 [pkg9, pkg3, pkg1]) 60, true) := by
  have h := (cached_search_sorts_stably [] 0 (Search.Package ['s']) 3 [pkg3, pkg9, pkg1]
    rfl (by decide)).1
  have hs : sortP [pkg3, pkg9, pkg1] = [pkg9, pkg3, pkg1] := by decide
  rw [hs] at h
  exact h

/-- Claim C7 counterexample: the code never enforces
`resultcount = results.len()` — it stores whatever count the upstream
payload carried. Here a payload with `resultcount = 2` but a single item
is stored verbatim, so the stored count differs from the stored item
count. -/
theorem resultcount_mismatch :
    cached_search [] 0 (Search.Package ['x']) (Upstream.ok (.Result 2 [pkg9])) =
      some (.Result 2 [pkg9], cacheInsert [] 0 ['x'] (.Result 2 [pkg9]) 60, true) ∧
    (2 : Nat) ≠ [pkg9].length := by
  constructor
  · exact cached_search_miss [] 0 (Search.Package ['x']) _ _ rfl rfl
  · decide

/-- Claim C7 (amended): the stored `resultcount` is exactly the count
parsed from the upstream payload; post-processing preserves both it and
the item-list length (so the claimed equality holds iff the payload
already satisfied it), and a stored entry is returned unchanged by every
in-TTL read. -/
theorem resultcount_preserved (c : Nat) (results : List Packages)
    (hsome : ∀ p ∈ results, p.popularity.isSome) :
    processResponse (.Result c results) = some (.Result c (sortP results)) ∧
    (sortP results).length = results.length ∧
    (c = results.length → c = (sortP results).length) ∧
    ∀ (st : CacheState) (now now2 : Nat) (k : Str) (v : AurResponse),
      now2 < now + 60 → cacheGet (cacheInsert st now k v 60) now2 k = some v := by
  have hlen : (sortP results).length = results.length :=
    (List.perm_insertionSort rPop results).length_eq
  refine ⟨?_, hlen, fun hc => hc.trans hlen.symm,
    fun st now now2 k v h => cacheGet_insert_self st now now2 k v 60 h⟩
  rw [show processResponse (.Result c results) = (sortByM results).map (.Result c) from rfl,
    sortByM_eq results hsome]
  rfl

/-- Witness for the amended claim C7 at a concrete payload and cache. -/
theorem resultcount_preserved_witness :
    processResponse (.Result 1 [pkg9]) = some (.Result 1 (sortP [pkg9])) ∧
    (sortP [pkg9]).length = [pkg9].length ∧
    1 = (sortP [pkg9]).length ∧
    cacheGet (cacheInsert [] 0 ['k'] (.Error ['e']) 60) 30 ['k'] = some (.Error ['e']) := by
  have h := resultcount_preserved 1 [pkg9] (by decide)
  exact ⟨h.1, h.2.1, h.2.2.1 (by decide), h.2.2.2 [] 0 30 ['k'] (.Error ['e']) (by omega)⟩

/-- Claim C9: on a miss `cached_search` inserts even an `Error` response,
with the same fixed 60-second TTL, and an identical query at any instant
strictly within the TTL is served the cached error from the unchanged
cache without contacting upstream (the second call's upstream outcome is
arbitrary and unused). -/
theorem error_response_cached (st : CacheState) (now now2 : Nat) (q : Search) (e : Str)
    (up2 : Upstream) (hmiss : cacheGet st now (derefKey q) = none)
    (httl : now2 < now + 60) :
    cached_search st now q (.ok (.Error e)) =
      some (.Error e, cacheInsert st now (derefKey q) (.Error e) 60, true) ∧
    cached_search (cacheInsert st now (derefKey q) (.Error e) 60) now2 q up2 =
      some (.Error e, cacheInsert st now (derefKey q) (.Error e) 60, false) :=
  ⟨cached_search_miss st now q _ _ hmiss rfl,
    cached_search_hit _ now2 q up2 _
      (cacheGet_insert_self st now now2 (derefKey q) (.Error e) 60 httl)⟩

/-- Witness for claim C9: a concrete error is cached at instant 0 and
served from the cache at instant 30. -/
theorem error_response_cached_witness :
    cached_search [] 0 (Search.Package ['w']) (Upstream.ok (.Error ['e'])) =
      some (.Error ['e'], cacheInsert [] 0 (derefKey (Search.Package ['w'])) (.Error ['e']) 60,
        true) ∧
    cached_search (cacheInsert [] 0 (derefKey (Search.Package ['w'])) (.Error ['e']) 60) 30
        (Search.Package ['w']) Upstream.netFail =
      some (.Error ['e'], cacheInsert [] 0 (derefKey (Search.Package ['w'])) (.Error ['e']) 60,
        false) :=
  error_response_cached [] 0 30 (Search.Package ['w']) ['e'] Upstream.netFail rfl (by omega)

/-- Claim C10: when every popularity is non-NaN the comparator's
`unwrap` is unreachable — the sort and the whole `cached_search` call
succeed — while a Success response containing a NaN popularity among at
least two items makes `cached_search` panic. -/
theorem nan_popularity_panics :
    (∀ results : List Packages, (∀ p ∈ results, p.popularity.isSome) →
      (sortByM results).isSome = true) ∧
    (∀ (st : CacheState) (now : Nat) (q : Search) (c : Nat) (results : List Packages),
      (∀ p ∈ results, p.popularity.isSome) →
      (cached_search st now q (.ok (.Result c results))).isSome = true) ∧
    cached_search [] 0 (Search.Package ['n']) (Upstream.ok (.Result 2 [nanPkg, pkg9])) = none := by
  refine ⟨?_, ?_, rfl⟩
  · intro results h
    rw [sortByM_eq results h]
    rfl
  · intro st now q c results h
    cases hget : cacheGet st now (derefKey q) with
    | some v =>
      rw [cached_search_hit st now q _ v hget]
      rfl
    | none =>
      have hpr : (search (.ok (.Result c results))).bind processResponse =
          some (.Result c (sortP results)) := by
        show processResponse (.Result c results) = some (.Result c (sortP results))
        rw [show processResponse (.Result c results) = (sortByM results).map (.Result c) from rfl,
          sortByM_eq results h]
        rfl
      rw [cached_search_miss st now q _ _ hget hpr]
      rfl

/-- Witness for claim C10's universally quantified parts at concrete
NaN-free inputs. -/
theorem nan_popularity_panics_witness :
    (sortByM [pkg3]).isSome = true ∧
    (cached_search [] 0 (Search.Package ['v']) (Upstream.ok (.Result 0 []))).isSome = true :=
  ⟨nan_popularity_panics.1 [pkg3] (by decide),
    nan_popularity_panics.2.1 [] 0 (Search.Package ['v']) 0 [] (by decide)⟩

end AurBot
